import Mathlib

/-!
# Tally Lilliput RM209 bridge — verification development

Shallow embedding of `src/tally_bridge.py`: an HTTP → UDP tally-light
bridge.  Pure functions of the source become Lean functions; the shared
mutable state table becomes explicit state passing; the Python exceptions
of the encoder become `Except`; socket I/O becomes a boolean outcome
parameter (`sockOk`) plus recorded send events.  Machine bytes are `Nat`
with explicit `% 256` where the source masks with `& 0xFF`.
-/

namespace TallyBridge

/-- `VALID_STATES = {'off', 'rouge', 'vert', 'jaune'}` (tally_bridge.py line 27). -/
def VALID_STATES : List String := ["off", "rouge", "vert", "jaune"]

/-- `STATE_BYTES` dict (tally_bridge.py lines 28–33): state name → protocol byte. -/
def STATE_BYTES : List (String × Nat) :=
  [("off", 0x07), ("rouge", 0x17), ("vert", 0x27), ("jaune", 0x37)]

/-- Dict lookup `STATE_BYTES[state]`; `none` embeds the `state not in STATE_BYTES` case. -/
def stateByte (state : String) : Option Nat :=
  (STATE_BYTES.find? (fun e => e.1 = state)).map Prod.snd

/-- `BANDEAUX` configuration (tally_bridge.py lines 16–20): group id → destination IP. -/
def BANDEAUX : List (Int × String) :=
  [(1, "192.168.1.109"), (2, "192.168.1.110"), (3, "192.168.1.111")]

/-- The configured group ids (the keys of `BANDEAUX`). -/
def bandIds : List Int := BANDEAUX.map Prod.fst

/-- `build_payload(screen_id, state)` (tally_bridge.py lines 53–86).
Returns the 28-byte datagram as a list of byte values, or the `ValueError`
message raised by the source.  `screen_id` is a Python `int`, embedded as `Int`. -/
def build_payload (screen_id : Int) (state : String) : Except String (List Nat) :=
  if screen_id ≠ 1 ∧ screen_id ≠ 2 then
    Except.error ("screen_id invalide: " ++ toString screen_id)
  else
    match stateByte state with
    | none => Except.error ("État invalide: " ++ state)
    | some state_byte =>
      -- Header (9 bytes) : 5A 1C 00 20 0[screen_id] FF 00 [7A si id=1, 00 si id=2] 05
      let header : List Nat :=
        [0x5A, 0x1C, 0x00, 0x20,
         0x00 + screen_id.toNat,
         0xFF, 0x00,
         if screen_id = 1 then 0x7A else 0x00,
         0x05]
      -- Body (19 bytes) : [state_byte] + 16*0x00 + [checksum] + 0xDD
      let zeros : List Nat := List.replicate 16 0
      let checksum_offset : Nat := if screen_id = 1 then 0x15 else 0x9C
      let checksum : Nat := (state_byte + checksum_offset) % 256
      let body : List Nat := state_byte :: zeros ++ [checksum, 0xDD]
      let payload := header ++ body
      if payload.length ≠ 28 then
        Except.error ("Payload invalide: " ++ toString payload.length ++ " bytes au lieu de 28")
      else
        Except.ok payload

/-- `send_tally_udp(band, screen_id, state)` (tally_bridge.py lines 89–107).
`sockOk` embeds the outcome of the `sock.sendto` call (a socket-level
exception in the source becomes `sockOk = false`).  Every exception of the
`try` block — encoding `ValueError` or socket error — is caught and turned
into the return value `false`; the function is total and never propagates
an error. -/
def send_tally_udp (sockOk : Bool) (band screen_id : Int) (state : String) : Bool :=
  if band ∉ bandIds then
    false
  else
    match build_payload screen_id state with
    | Except.error _ => false     -- caught by `except Exception`, returns False
    | Except.ok _ => sockOk       -- sendto succeeded ↔ no socket exception

/-! ## The commanded-state table

`current_states = {band: {1: 'off', 2: 'off'} for band in BANDEAUX}`
(tally_bridge.py line 49): a dict of dicts, embedded as an association
list of association lists kept in insertion order. -/

/-- The state table: group id → (screen id → state name). -/
abbrev Table := List (Int × List (Int × String))

/-- Python inner-dict assignment `screens[screen_id] = state`: overwrite in
place when the key exists, append otherwise. -/
def innerSet (d : List (Int × String)) (k : Int) (v : String) : List (Int × String) :=
  if d.any (fun e => e.1 = k) then
    d.map (fun e => if e.1 = k then (k, v) else e)
  else
    d ++ [(k, v)]

/-- `current_states[band][screen_id] = state` (tally_bridge.py line 187).
The outer indexing `current_states[band]` presumes the group key exists
(guaranteed by validation in `do_GET`; a missing group would raise
`KeyError` in the source — here it is a no-op, unreachable after validation). -/
def setEntry (t : Table) (band screen_id : Int) (v : String) : Table :=
  t.map (fun e => if e.1 = band then (e.1, innerSet e.2 screen_id v) else e)

/-- Read `current_states[band][screen_id]`, `none` when the pair is absent. -/
def getEntry (t : Table) (band screen_id : Int) : Option String :=
  (t.find? (fun e => e.1 = band)).bind
    (fun e => (e.2.find? (fun p => p.1 = screen_id)).map Prod.snd)

/-- The (group, screen) keys present in the table, in table order. -/
def entryKeys (t : Table) : List (Int × Int) :=
  t.flatMap (fun e => e.2.map (fun p => (e.1, p.1)))

/-- `current_states` at startup (tally_bridge.py line 49): every configured
group with screens 1 and 2, all `'off'`. -/
def init_current_states : Table :=
  BANDEAUX.map (fun e => (e.1, [(1, "off"), (2, "off")]))

/-! ## The refresh loop (`poller`, tally_bridge.py lines 110–134)

One iteration: snapshot the table under the lock, then for every
`(band, screens)` of the snapshot and every `(screen_id, state)` of the
inner dict, call `send_tally_udp` iff `state != 'off'`.  The embedding
returns the list of send invocations of one iteration, in loop order. -/

/-- The `send_tally_udp` invocations of one poller iteration over snapshot `t`. -/
def poller_cycle_sends (t : Table) : List (Int × Int × String) :=
  t.flatMap (fun e =>
    (e.2.filter (fun p => p.2 ≠ "off")).map (fun p => (e.1, p.1, p.2)))

/-! ## The HTTP handler (`TallyHandler.do_GET`, tally_bridge.py lines 152–208) -/

/-- Python `str.lower()`, embedded as a per-character lowercase map. -/
def pyLower (s : String) : String := String.mk (s.data.map Char.toLower)

/-- An inbound GET request, after the out-of-scope parsing layer:
`isFavicon` embeds `'/favicon' in self.path`; the three fields embed
`params.get(...)` — `none` when the query parameter is absent, the ints
already through Python `int()`. -/
structure Request where
  isFavicon : Bool
  state : Option String
  id : Option Int
  band : Option Int

/-- The HTTP response written by the handler. -/
inductive Resp
  | ok (body : String)            -- send_response(200) + plain-text body
  | err (code : Nat) (msg : String)  -- send_error(code, msg)
  | noContent                     -- send_response(204), favicon suppression
deriving DecidableEq, Repr

/-- Result of one `do_GET`: response, table after the request, and the
`send_tally_udp` invocations performed (band, screen, state). -/
structure GetResult where
  resp : Resp
  table : Table
  sends : List (Int × Int × String)
deriving DecidableEq

/-- `TallyHandler.do_GET` (tally_bridge.py lines 152–208) on table `t`;
`sockOk` embeds the socket outcome of the one immediate send. -/
def do_GET (sockOk : Bool) (req : Request) (t : Table) : GetResult :=
  if req.isFavicon then
    { resp := Resp.noContent, table := t, sends := [] }
  else
    -- state = params.get('state', ['off'])[0].lower()
    let state := pyLower (req.state.getD "off")
    -- screen_id = int(params.get('id', ['1'])[0]) ; band = int(params.get('band', ['1'])[0])
    let screen_id := req.id.getD 1
    let band := req.band.getD 1
    if state ∉ VALID_STATES then
      { resp := Resp.err 400 "État invalide. Valeurs: off, rouge, vert, jaune",
        table := t, sends := [] }
    else if screen_id ≠ 1 ∧ screen_id ≠ 2 then
      { resp := Resp.err 400 "ID écran invalide. Valeurs: 1 ou 2",
        table := t, sends := [] }
    else if band ∉ bandIds then
      { resp := Resp.err 400 "Bandeau invalide. Valeurs: 1, 2, 3",
        table := t, sends := [] }
    else
      -- with state_lock: current_states[band][screen_id] = state
      let t2 := setEntry t band screen_id state
      -- success = send_tally_udp(band, screen_id, state)
      let success := send_tally_udp sockOk band screen_id state
      if success then
        { resp := Resp.ok ("OK - Bandeau " ++ toString band ++ " écran "
                           ++ toString screen_id ++ " : " ++ state ++ "\n"),
          table := t2, sends := [(band, screen_id, state)] }
      else
        { resp := Resp.err 500 "Erreur envoi UDP", table := t2,
          sends := [(band, screen_id, state)] }

/-! ## Graceful shutdown (`main`, tally_bridge.py lines 230–247)

On `KeyboardInterrupt`: for every configured band and screens `[1, 2]`,
`send_tally_udp(band, screen_id, 'off')`, then close every socket.  The
source never touches `current_states` here. -/

/-- An observable shutdown event: a send invocation (with its outcome) or a
socket close. -/
inductive ShutdownEv
  | send (band screen_id : Int) (state : String) (ok : Bool)
  | close (band : Int)
deriving DecidableEq, Repr

/-- The event sequence of the `KeyboardInterrupt` branch of `main`, in
program order: all OFF sends, then all socket closes. -/
def shutdownEvents (sockOk : Bool) : List ShutdownEv :=
  (bandIds.flatMap (fun band =>
    [(1 : Int), 2].map (fun screen_id =>
      ShutdownEv.send band screen_id "off" (send_tally_udp sockOk band screen_id "off"))))
  ++ bandIds.map ShutdownEv.close

/-- Graceful shutdown as a state transformer: the table it leaves behind
(the source does not modify `current_states`) paired with the emitted events. -/
def shutdownRun (sockOk : Bool) (t : Table) : Table × List ShutdownEv :=
  (t, shutdownEvents sockOk)

/-! ## Spec-side payload description

Transcribed from the specification's words (§4.1 / claim C1), to be
compared against `build_payload`: header `5A 1C 00 20 0X FF 00 Y 05` with
`X` the screen number in the low nibble of byte 5 and `Y = 0x7A` iff the
screen is 1; then the state code, 16 zero bytes, the checksum
`(state_code + offset) mod 256` with offset `0x15`/`0x9C` per screen, and
the trailer `0xDD`. -/
def specPayload (screen : Int) (code : Nat) : List Nat :=
  [0x5A, 0x1C, 0x00, 0x20,
   screen.toNat,
   0xFF, 0x00,
   if screen = 1 then 0x7A else 0x00,
   0x05]
  ++ code :: List.replicate 16 0
  ++ [(code + (if screen = 1 then 0x15 else 0x9C)) % 256, 0xDD]

/-! ## Lock discipline model (claim C9)

The source serializes table access through `state_lock`: the poller's
snapshot (lines 119–123) copies the table band by band inside
`with state_lock`, and `do_GET` writes an entry inside `with state_lock`
(lines 185–187).  We model the two critical-section shapes as thread
programs over an interleaving semantics in which `acquire` blocks while
the lock is held, but reads and writes themselves are *unguarded* (as in
Python): mutual exclusion must emerge from the program shapes alone.
Thread 0 is the poller taking one snapshot; the other threads are HTTP
writers.  (The `old_state` read inside the writer's critical section is
elided: it does not change the table.) -/

/-- An atomic action on the shared state. -/
inductive Act
  | acq                              -- state_lock.acquire (blocking)
  | rel                              -- state_lock.release
  | write (k : Int × Int) (v : String)  -- current_states[k.1][k.2] = v
  | copy (band : Int)                -- snapshot[band] = screens.copy()
deriving DecidableEq, Repr

/-- A configuration of the interleaving semantics: shared table, lock
owner, remaining program of each thread, and the poller's snapshot
accumulated so far. -/
structure LockConfig where
  table : Table
  lock : Option Nat
  progs : List (List Act)
  acc : Table
deriving DecidableEq

/-- One scheduler step: thread `i` executes its next action if enabled
(`acq` blocks unless the lock is free; `rel` by a non-owner is a no-op;
`write` and `copy` are never blocked — the lock is advisory, as in Python). -/
def stepT (c : LockConfig) (i : Nat) : LockConfig :=
  match c.progs[i]? with
  | none => c
  | some [] => c
  | some (Act.acq :: rest) =>
      if c.lock = none then
        { c with lock := some i, progs := c.progs.set i rest }
      else c
  | some (Act.rel :: rest) =>
      if c.lock = some i then
        { c with lock := none, progs := c.progs.set i rest }
      else c
  | some (Act.write k v :: rest) =>
      { c with table := setEntry c.table k.1 k.2 v, progs := c.progs.set i rest }
  | some (Act.copy band :: rest) =>
      { c with acc := c.acc ++ c.table.filter (fun e => e.1 = band),
               progs := c.progs.set i rest }

/-- Run a finite schedule (list of thread choices). -/
def runSched (c : LockConfig) (sched : List Nat) : LockConfig :=
  sched.foldl stepT c

/-- The poller's critical section (tally_bridge.py lines 119–123): under
the lock, copy the inner dict of every band in iteration order. -/
def snapProg : List Act :=
  Act.acq :: bandIds.map Act.copy ++ [Act.rel]

/-- An HTTP writer's critical section (tally_bridge.py lines 185–187). -/
def writerProg (k : Int × Int) (v : String) : List Act :=
  [Act.acq, Act.write k v, Act.rel]

/-- A writer thread whose whole critical section is still ahead of it. -/
abbrev writerFull (p : List Act) : Prop :=
  ∃ k v, p = [Act.acq, Act.write k v, Act.rel]

/-- A writer thread outside its critical section (not started, or finished). -/
abbrev writerOutside (p : List Act) : Prop :=
  writerFull p ∨ p = []

/-- A writer thread inside its critical section (it holds the lock). -/
abbrev writerMid (p : List Act) : Prop :=
  (∃ k v, p = [Act.write k v, Act.rel]) ∨ p = [Act.rel]

/-- The fully-consistent snapshot of a table: every band's rows, copied in
band iteration order from one single table value. -/
def snapshotOf (T : Table) : Table :=
  bandIds.flatMap (fun b => T.filter (fun e => e.1 = b))

/-- Invariant for the snapshot-consistency proof.  Phase 1: the poller
(thread 0) holds the lock, the table is frozen at `T`, the accumulated
snapshot is a prefix of the copy of `T`, every writer is outside its
critical section.  Phase 2: the poller has finished with a complete,
consistent copy of `T`; at most one writer is inside its critical section,
and that writer holds the lock. -/
abbrev SnapInv (T : Table) (c : LockConfig) : Prop :=
  (c.lock = some 0 ∧ c.table = T ∧
    (∃ done rem, done ++ rem = bandIds ∧
      c.progs[0]? = some (rem.map Act.copy ++ [Act.rel]) ∧
      c.acc = done.flatMap (fun b => T.filter (fun e => e.1 = b))) ∧
    (∀ j p, j ≠ 0 → c.progs[j]? = some p → writerOutside p))
  ∨
  (c.progs[0]? = some ([] : List Act) ∧ c.acc = snapshotOf T ∧
    ((c.lock = none ∧ ∀ j p, j ≠ 0 → c.progs[j]? = some p → writerOutside p)
     ∨ (∃ j, j ≠ 0 ∧ c.lock = some j ∧
          (∀ p, c.progs[j]? = some p → writerMid p) ∧
          (∀ j' p, j' ≠ 0 → j' ≠ j → c.progs[j']? = some p → writerOutside p))))

/-! ## Helper lemmas -/

/-- A state name outside `VALID_STATES` is absent from the `STATE_BYTES` dict. -/
theorem stateByte_eq_none_of_not_mem (st : String) (h : st ∉ VALID_STATES) :
    stateByte st = none := by
  simp only [VALID_STATES, List.mem_cons, List.not_mem_nil, or_false, not_or] at h
  obtain ⟨h1, h2, h3, h4⟩ := h
  simp [stateByte, STATE_BYTES, List.find?_cons,
        Ne.symm h1, Ne.symm h2, Ne.symm h3, Ne.symm h4]

/-- Well-formedness of the table: outer group keys are distinct and every
inner screen-key list is distinct (true of every Python dict). -/
abbrev TableWF (t : Table) : Prop :=
  (t.map Prod.fst).Nodup ∧ ∀ e ∈ t, (e.2.map Prod.fst).Nodup

/-- In a keys-distinct inner dict containing `(s, st)`, the number of
non-off entries at key `s` is 1 if `st` is non-off, else 0. -/
theorem inner_countP (d : List (Int × String)) (hnd : (d.map Prod.fst).Nodup)
    (s : Int) (st : String) (hm : (s, st) ∈ d) :
    d.countP (fun p => decide (p.1 = s) && decide (p.2 ≠ "off"))
      = if st = "off" then 0 else 1 := by
  induction d with
  | nil => simp at hm
  | cons a d ih =>
    simp only [List.map_cons, List.nodup_cons] at hnd
    rcases List.mem_cons.mp hm with hm | hm
    · subst hm
      have hz : d.countP (fun p => decide (p.1 = s) && decide (p.2 ≠ "off")) = 0 := by
        rw [List.countP_eq_zero]
        intro p hp
        have hmem : p.1 ∈ d.map Prod.fst := List.mem_map_of_mem Prod.fst hp
        have hne : p.1 ≠ s := fun he => hnd.1 (he ▸ hmem)
        simp [hne]
      rw [List.countP_cons, hz]
      by_cases hoff : st = "off" <;> simp [hoff]
    · have hmem : (s, st).1 ∈ d.map Prod.fst := List.mem_map_of_mem Prod.fst hm
      have hne : a.1 ≠ s := by
        intro he
        exact hnd.1 (by rw [he]; exact hmem)
      have hpa : (decide (a.1 = s) && decide (a.2 ≠ "off")) = false := by simp [hne]
      rw [List.countP_cons, hpa]
      simp only [Bool.false_eq_true, if_false, Nat.add_zero]
      exact ih hnd.2 hm

/-- A send recorded by a poller cycle corresponds to a table entry: its
group is a key of the table. -/
theorem fst_mem_of_mem_poller {t : Table} {tr : Int × Int × String}
    (h : tr ∈ poller_cycle_sends t) : tr.1 ∈ t.map Prod.fst := by
  simp only [poller_cycle_sends, List.mem_flatMap, List.mem_map,
             List.mem_filter] at h
  obtain ⟨e, he, p, _, heq⟩ := h
  exact List.mem_map.mpr ⟨e, he, by rw [← heq]⟩

/-- Characterization of the sends of one poller cycle. -/
theorem mem_poller_cycle_sends {t : Table} {b s : Int} {st : String} :
    (b, s, st) ∈ poller_cycle_sends t ↔
      (∃ d, (b, d) ∈ t ∧ (s, st) ∈ d) ∧ st ≠ "off" := by
  simp only [poller_cycle_sends, List.mem_flatMap, List.mem_map, List.mem_filter]
  constructor
  · rintro ⟨e, he, p, ⟨hpmem, hpoff⟩, heq⟩
    obtain ⟨h1, h2, h3⟩ : e.1 = b ∧ p.1 = s ∧ p.2 = st :=
      ⟨congrArg Prod.fst heq, congrArg (Prod.fst ∘ Prod.snd) heq,
       congrArg (Prod.snd ∘ Prod.snd) heq⟩
    refine ⟨⟨e.2, ?_, ?_⟩, ?_⟩
    · rw [← h1]; exact he
    · rw [← h2, ← h3]; exact hpmem
    · rw [← h3]; simpa using hpoff
  · rintro ⟨⟨d, hd, hm⟩, hoff⟩
    exact ⟨(b, d), hd, (s, st), ⟨hm, by simpa using hoff⟩, rfl⟩

/-- A successful `getEntry` exhibits a matching entry of the table. -/
theorem getEntry_spec {t : Table} {b s : Int} {st : String}
    (h : getEntry t b s = some st) : ∃ d, (b, d) ∈ t ∧ (s, st) ∈ d := by
  unfold getEntry at h
  cases hf : t.find? (fun e => e.1 = b) with
  | none => rw [hf] at h; simp at h
  | some e =>
    rw [hf] at h
    have heb : e.1 = b := by simpa using List.find?_some hf
    have hemem : e ∈ t := List.mem_of_find?_eq_some hf
    obtain ⟨p, hp, hps⟩ := Option.map_eq_some'.mp h
    have hps1 : p.1 = s := by simpa using List.find?_some hp
    have hpmem : p ∈ e.2 := List.mem_of_find?_eq_some hp
    refine ⟨e.2, ?_, ?_⟩
    · rw [← heb]; exact hemem
    · rw [← hps1, ← hps]; exact hpmem

/-- One poller cycle sends exactly once for a non-off entry, never for an
off entry (counting form, used by the C2 theorem). -/
theorem poller_countP (t : Table) (hwf : TableWF t) (b s : Int) (st : String)
    (h : getEntry t b s = some st) :
    (poller_cycle_sends t).countP
        (fun tr => decide (tr.1 = b) && decide (tr.2.1 = s))
      = if st = "off" then 0 else 1 := by
  induction t with
  | nil => simp [getEntry] at h
  | cons e t' ih =>
    obtain ⟨hout, hin⟩ := hwf
    rw [List.map_cons, List.nodup_cons] at hout
    have hpoll : poller_cycle_sends (e :: t') =
        ((e.2.filter (fun p => p.2 ≠ "off")).map (fun p => (e.1, p.1, p.2)))
          ++ poller_cycle_sends t' := by
      simp [poller_cycle_sends]
    rw [hpoll, List.countP_append]
    by_cases hb : e.1 = b
    · have hget : (e.2.find? (fun p => p.1 = s)).map Prod.snd = some st := by
        unfold getEntry at h
        rw [List.find?_cons_of_pos _ (by simp [hb])] at h
        simpa using h
      obtain ⟨p, hp, hps⟩ := Option.map_eq_some'.mp hget
      have hps1 : p.1 = s := by simpa using List.find?_some hp
      have hpmem : (s, st) ∈ e.2 := by
        have hm := List.mem_of_find?_eq_some hp
        rw [← hps1, ← hps]
        simpa using hm
      have h1 : ((e.2.filter (fun p => p.2 ≠ "off")).map
            (fun p => (e.1, p.1, p.2))).countP
            (fun tr => decide (tr.1 = b) && decide (tr.2.1 = s))
          = if st = "off" then 0 else 1 := by
        rw [List.countP_map, List.countP_filter,
            ← inner_countP e.2 (hin e (List.mem_cons_self e t')) s st hpmem]
        congr 1
        funext a
        simp [hb, Function.comp]
      have h2 : (poller_cycle_sends t').countP
            (fun tr => decide (tr.1 = b) && decide (tr.2.1 = s)) = 0 := by
        rw [List.countP_eq_zero]
        intro tr htr
        have hmem := fst_mem_of_mem_poller htr
        have hne : tr.1 ≠ b := fun he => absurd (he ▸ hmem) (hb ▸ hout.1)
        simp [hne]
      rw [h1, h2, Nat.add_zero]
    · have h' : getEntry t' b s = some st := by
        unfold getEntry at h ⊢
        rw [List.find?_cons_of_neg _ (by simp [hb])] at h
        exact h
      have h1 : ((e.2.filter (fun p => p.2 ≠ "off")).map
            (fun p => (e.1, p.1, p.2))).countP
            (fun tr => decide (tr.1 = b) && decide (tr.2.1 = s)) = 0 := by
        rw [List.countP_eq_zero]
        intro tr htr
        obtain ⟨p, _, heq⟩ := List.mem_map.mp htr
        rw [← heq]
        simp [hb]
      rw [h1, ih ⟨hout.2, fun x hx => hin x (List.mem_cons_of_mem e hx)⟩ h']
      omega

/-! ## Claim theorems -/

/-- C1: for every screen in {1,2} and every state in the fixed state set
(idle = `off`, red = `rouge`, green = `vert`, yellow = `jaune`),
`build_payload` returns exactly the 28-byte layout described by the spec:
header `5A 1C 00 20 0X FF 00 Y 05` (X = screen in the low nibble of byte 5,
`Y = 0x7A` iff screen 1), then the state code (idle→0x07, red→0x17,
green→0x27, yellow→0x37), 16 zero bytes, the checksum
`(state_code + offset) mod 256` with offset 0x15 for screen 1 and 0x9C for
screen 2, and the trailer `0xDD`. -/
theorem C1_encode_layout (screen : Int) (h : screen = 1 ∨ screen = 2) :
    build_payload screen "off"   = Except.ok (specPayload screen 0x07) ∧
    build_payload screen "rouge" = Except.ok (specPayload screen 0x17) ∧
    build_payload screen "vert"  = Except.ok (specPayload screen 0x27) ∧
    build_payload screen "jaune" = Except.ok (specPayload screen 0x37) ∧
    ∀ code : Nat, (specPayload screen code).length = 28 := by
  rcases h with h | h <;> subst h <;>
    exact ⟨rfl, rfl, rfl, rfl, fun code => by simp [specPayload]⟩

/-- Witness for C1 at screen 1. -/
theorem C1_encode_layout_witness :
    ((1 : Int) = 1 ∨ (1 : Int) = 2) ∧
    (build_payload 1 "off"   = Except.ok (specPayload 1 0x07) ∧
     build_payload 1 "rouge" = Except.ok (specPayload 1 0x17) ∧
     build_payload 1 "vert"  = Except.ok (specPayload 1 0x27) ∧
     build_payload 1 "jaune" = Except.ok (specPayload 1 0x37) ∧
     ∀ code : Nat, (specPayload 1 code).length = 28) :=
  ⟨Or.inl rfl, C1_encode_layout 1 (Or.inl rfl)⟩

/-- C5: for every screen outside {1,2} or state outside the fixed state
set, `build_payload` fails with a `ValueError` (embedded as
`Except.error`) and produces no payload, not even a partial one. -/
theorem C5_encode_invalid (screen : Int) (st : String)
    (h : ¬(screen = 1 ∨ screen = 2) ∨ st ∉ VALID_STATES) :
    ∃ msg, build_payload screen st = Except.error msg := by
  by_cases hscreen : screen ≠ 1 ∧ screen ≠ 2
  · exact ⟨"screen_id invalide: " ++ toString screen,
           by simp [build_payload, hscreen]⟩
  · have hst : st ∉ VALID_STATES := by
      rcases h with h | h
      · exact absurd (by push_neg at h; exact h) hscreen
      · exact h
    have hnone := stateByte_eq_none_of_not_mem st hst
    exact ⟨"État invalide: " ++ st,
           by simp [build_payload, hscreen, hnone]⟩

/-- Witness for C5 at `build_payload 3 "rouge"` (screen out of domain). -/
theorem C5_encode_invalid_witness :
    (¬((3 : Int) = 1 ∨ (3 : Int) = 2) ∨ "rouge" ∉ VALID_STATES) ∧
    ∃ msg, build_payload 3 "rouge" = Except.error msg :=
  ⟨Or.inl (by decide), C5_encode_invalid 3 "rouge" (Or.inl (by decide))⟩

/-- C7: `send_tally_udp` is a total function returning a boolean outcome
— every failure cause (unknown group, encoding error, socket-level send
error) yields the return value `false` instead of a propagated exception,
and it returns `true` exactly when the group is configured, the payload
encodes, and the socket send succeeds. -/
theorem C7_send_failure_is_value (sockOk : Bool) (band screen_id : Int) (state : String) :
    send_tally_udp sockOk band screen_id state = true ↔
      band ∈ bandIds ∧ (∃ p, build_payload screen_id state = Except.ok p)
        ∧ sockOk = true := by
  unfold send_tally_udp
  by_cases hb : band ∈ bandIds
  · cases hpay : build_payload screen_id state <;> simp [hb, hpay]
  · simp [hb]

/-- C2: on every iteration of the refresh loop, over a snapshot table `t`
(with dict-shaped keys), the loop invokes the UDP send exactly once for
every (group, screen) entry whose state is not `off` (and that invocation
carries the entry's state), and zero times for every entry whose state is
`off`; no send of an `off` state ever occurs in a refresh cycle. -/
theorem C2_refresh_loop (t : Table) (hwf : TableWF t) (b s : Int) (st : String)
    (h : getEntry t b s = some st) :
    ((poller_cycle_sends t).countP
        (fun tr => decide (tr.1 = b) && decide (tr.2.1 = s))
      = if st = "off" then 0 else 1)
    ∧ (st ≠ "off" → (b, s, st) ∈ poller_cycle_sends t)
    ∧ (∀ tr ∈ poller_cycle_sends t, tr.2.2 ≠ "off") := by
  refine ⟨poller_countP t hwf b s st h, ?_, ?_⟩
  · intro hoff
    obtain ⟨d, hd, hm⟩ := getEntry_spec h
    exact mem_poller_cycle_sends.mpr ⟨⟨d, hd, hm⟩, hoff⟩
  · intro tr htr
    simp only [poller_cycle_sends, List.mem_flatMap, List.mem_map,
               List.mem_filter] at htr
    obtain ⟨e, _, p, ⟨_, hpo⟩, heq⟩ := htr
    rw [← heq]
    simpa using hpo

/-- Witness for C2: the table after commanding (1,1) = `jaune`; the cycle
sends (1,1,jaune) exactly once and nothing for the five off entries. -/
theorem C2_refresh_loop_witness :
    (TableWF (setEntry init_current_states 1 1 "jaune") ∧
     getEntry (setEntry init_current_states 1 1 "jaune") 1 1 = some "jaune") ∧
    (((poller_cycle_sends (setEntry init_current_states 1 1 "jaune")).countP
        (fun tr => decide (tr.1 = 1) && decide (tr.2.1 = 1))
      = if "jaune" = "off" then 0 else 1)
    ∧ ("jaune" ≠ "off" →
        ((1 : Int), (1 : Int), "jaune")
          ∈ poller_cycle_sends (setEntry init_current_states 1 1 "jaune"))
    ∧ (∀ tr ∈ poller_cycle_sends (setEntry init_current_states 1 1 "jaune"),
        tr.2.2 ≠ "off")) :=
  ⟨⟨⟨by decide, by decide⟩, by decide⟩,
   C2_refresh_loop _ ⟨by decide, by decide⟩ 1 1 "jaune" (by decide)⟩

/-- Encoding succeeds on the whole valid domain. -/
theorem build_payload_ok (screen_id : Int) (h : screen_id = 1 ∨ screen_id = 2)
    (st : String) (hst : st ∈ VALID_STATES) :
    ∃ p, build_payload screen_id st = Except.ok p := by
  simp only [VALID_STATES, List.mem_cons, List.not_mem_nil, or_false] at hst
  rcases h with h | h <;> subst h <;>
    rcases hst with h | h | h | h <;> subst h <;> exact ⟨_, rfl⟩

/-- On the valid domain, the send outcome is exactly the socket outcome. -/
theorem send_tally_udp_eq (sockOk : Bool) (band screen_id : Int) (st : String)
    (hband : band ∈ bandIds) (hid : screen_id = 1 ∨ screen_id = 2)
    (hst : st ∈ VALID_STATES) :
    send_tally_udp sockOk band screen_id st = sockOk := by
  obtain ⟨p, hp⟩ := build_payload_ok screen_id hid st hst
  simp [send_tally_udp, hband, hp]

/-- Behaviour of `do_GET` on a fully-valid request (helper shared by the
C3 and C10 theorems). -/
theorem do_GET_valid (sockOk : Bool) (req : Request) (t : Table)
    (hfav : req.isFavicon = false)
    (hst : pyLower (req.state.getD "off") ∈ VALID_STATES)
    (hid : req.id.getD 1 = 1 ∨ req.id.getD 1 = 2)
    (hband : req.band.getD 1 ∈ bandIds) :
    (do_GET sockOk req t).table
        = setEntry t (req.band.getD 1) (req.id.getD 1) (pyLower (req.state.getD "off"))
    ∧ (do_GET sockOk req t).sends
        = [(req.band.getD 1, req.id.getD 1, pyLower (req.state.getD "off"))]
    ∧ (sockOk = true →
        (do_GET sockOk req t).resp =
          Resp.ok ("OK - Bandeau " ++ toString (req.band.getD 1) ++ " écran "
            ++ toString (req.id.getD 1) ++ " : "
            ++ pyLower (req.state.getD "off") ++ "\n"))
    ∧ (sockOk = false →
        (do_GET sockOk req t).resp = Resp.err 500 "Erreur envoi UDP") := by
  have hsend := send_tally_udp_eq sockOk (req.band.getD 1) (req.id.getD 1)
    (pyLower (req.state.getD "off")) hband hid hst
  have hnotid : ¬(req.id.getD 1 ≠ 1 ∧ req.id.getD 1 ≠ 2) := by
    rcases hid with h | h <;> simp [h]
  cases sockOk with
  | true => simp [do_GET, hfav, hst, hnotid, hband, hsend]
  | false => simp [do_GET, hfav, hst, hnotid, hband, hsend]

/-- C3: for every GET request whose (effective) state, screen and group
parameters are all valid, the handler writes the new state into the table
entry for that (group, screen), performs exactly one immediate UDP send of
the corresponding (group, screen, state), and answers HTTP 200 with a
plain-text body naming group, screen and state when the send succeeds, or
HTTP 500 when it fails. -/
theorem C3_valid_request (sockOk : Bool) (req : Request) (t : Table)
    (hfav : req.isFavicon = false)
    (hst : pyLower (req.state.getD "off") ∈ VALID_STATES)
    (hid : req.id.getD 1 = 1 ∨ req.id.getD 1 = 2)
    (hband : req.band.getD 1 ∈ bandIds) :
    (do_GET sockOk req t).table
        = setEntry t (req.band.getD 1) (req.id.getD 1) (pyLower (req.state.getD "off"))
    ∧ (do_GET sockOk req t).sends
        = [(req.band.getD 1, req.id.getD 1, pyLower (req.state.getD "off"))]
    ∧ (sockOk = true →
        (do_GET sockOk req t).resp =
          Resp.ok ("OK - Bandeau " ++ toString (req.band.getD 1) ++ " écran "
            ++ toString (req.id.getD 1) ++ " : "
            ++ pyLower (req.state.getD "off") ++ "\n"))
    ∧ (sockOk = false →
        (do_GET sockOk req t).resp = Resp.err 500 "Erreur envoi UDP") :=
  do_GET_valid sockOk req t hfav hst hid hband

/-- A concrete valid request: `/?state=rouge&band=1&id=2`. -/
def reqRouge : Request :=
  { isFavicon := false, state := some "rouge", id := some 2, band := some 1 }

/-- Witness for C3 on `/?state=rouge&band=1&id=2` with a healthy socket. -/
theorem C3_valid_request_witness :
    (reqRouge.isFavicon = false
      ∧ pyLower (reqRouge.state.getD "off") ∈ VALID_STATES
      ∧ (reqRouge.id.getD 1 = 1 ∨ reqRouge.id.getD 1 = 2)
      ∧ reqRouge.band.getD 1 ∈ bandIds) ∧
    ((do_GET true reqRouge init_current_states).table
        = setEntry init_current_states (reqRouge.band.getD 1) (reqRouge.id.getD 1)
            (pyLower (reqRouge.state.getD "off"))
    ∧ (do_GET true reqRouge init_current_states).sends
        = [(reqRouge.band.getD 1, reqRouge.id.getD 1, pyLower (reqRouge.state.getD "off"))]
    ∧ (true = true →
        (do_GET true reqRouge init_current_states).resp =
          Resp.ok ("OK - Bandeau " ++ toString (reqRouge.band.getD 1) ++ " écran "
            ++ toString (reqRouge.id.getD 1) ++ " : "
            ++ pyLower (reqRouge.state.getD "off") ++ "\n"))
    ∧ (true = false →
        (do_GET true reqRouge init_current_states).resp = Resp.err 500 "Erreur envoi UDP")) :=
  ⟨⟨rfl, by decide, by decide, by decide⟩,
   C3_valid_request true reqRouge init_current_states rfl (by decide) (by decide) (by decide)⟩

/-- C6: for every GET request (non-favicon) whose effective state is not in
the fixed state set, or whose screen id is not in {1,2}, or whose group is
not configured, the handler answers HTTP 400 with one of the messages
listing the valid values, performs no send, and leaves the table
completely unchanged. -/
theorem C6_invalid_request (sockOk : Bool) (req : Request) (t : Table)
    (hfav : req.isFavicon = false)
    (h : pyLower (req.state.getD "off") ∉ VALID_STATES
       ∨ ¬(req.id.getD 1 = 1 ∨ req.id.getD 1 = 2)
       ∨ req.band.getD 1 ∉ bandIds) :
    (do_GET sockOk req t).table = t
    ∧ (do_GET sockOk req t).sends = []
    ∧ ∃ msg, (do_GET sockOk req t).resp = Resp.err 400 msg
        ∧ msg ∈ ["État invalide. Valeurs: off, rouge, vert, jaune",
                 "ID écran invalide. Valeurs: 1 ou 2",
                 "Bandeau invalide. Valeurs: 1, 2, 3"] := by
  by_cases hst : pyLower (req.state.getD "off") ∈ VALID_STATES
  · by_cases hid : req.id.getD 1 = 1 ∨ req.id.getD 1 = 2
    · have hband : req.band.getD 1 ∉ bandIds := by tauto
      have hnotid : ¬(req.id.getD 1 ≠ 1 ∧ req.id.getD 1 ≠ 2) := by
        rcases hid with h' | h' <;> simp [h']
      have hres : do_GET sockOk req t =
          { resp := Resp.err 400 "Bandeau invalide. Valeurs: 1, 2, 3",
            table := t, sends := [] } := by
        simp [do_GET, hfav, hst, hnotid, hband]
      rw [hres]
      exact ⟨rfl, rfl, _, rfl, by simp⟩
    · have hnotid2 : req.id.getD 1 ≠ 1 ∧ req.id.getD 1 ≠ 2 := by
        push_neg at hid; exact hid
      have hres : do_GET sockOk req t =
          { resp := Resp.err 400 "ID écran invalide. Valeurs: 1 ou 2",
            table := t, sends := [] } := by
        simp [do_GET, hfav, hst, hnotid2]
      rw [hres]
      exact ⟨rfl, rfl, _, rfl, by simp⟩
  · have hres : do_GET sockOk req t =
        { resp := Resp.err 400 "État invalide. Valeurs: off, rouge, vert, jaune",
          table := t, sends := [] } := by
      simp [do_GET, hfav, hst]
    rw [hres]
    exact ⟨rfl, rfl, _, rfl, by simp⟩

/-- A concrete invalid request: `/?state=violet`. -/
def reqViolet : Request :=
  { isFavicon := false, state := some "violet", id := none, band := none }

/-- Witness for C6 on `/?state=violet`: HTTP 400, table untouched. -/
theorem C6_invalid_request_witness :
    (reqViolet.isFavicon = false
      ∧ (pyLower (reqViolet.state.getD "off") ∉ VALID_STATES
         ∨ ¬(reqViolet.id.getD 1 = 1 ∨ reqViolet.id.getD 1 = 2)
         ∨ reqViolet.band.getD 1 ∉ bandIds)) ∧
    ((do_GET true reqViolet init_current_states).table = init_current_states
    ∧ (do_GET true reqViolet init_current_states).sends = []
    ∧ ∃ msg, (do_GET true reqViolet init_current_states).resp = Resp.err 400 msg
        ∧ msg ∈ ["État invalide. Valeurs: off, rouge, vert, jaune",
                 "ID écran invalide. Valeurs: 1 ou 2",
                 "Bandeau invalide. Valeurs: 1, 2, 3"]) :=
  ⟨⟨rfl, Or.inl (by decide)⟩,
   C6_invalid_request true reqViolet init_current_states rfl (Or.inl (by decide))⟩

/-- C10: a GET request on a non-favicon path whose query string carries no
`state` parameter is not rejected: the handler behaves exactly as if
`state=off` had been supplied — for a valid (possibly defaulted) screen
and group it sets the addressed entry to `off`, performs the one idle
send, and never returns HTTP 400. -/
theorem C10_missing_state_defaults_off (sockOk : Bool) (req : Request) (t : Table)
    (hnone : req.state = none) (hfav : req.isFavicon = false)
    (hid : req.id.getD 1 = 1 ∨ req.id.getD 1 = 2)
    (hband : req.band.getD 1 ∈ bandIds) :
    do_GET sockOk req t = do_GET sockOk { req with state := some "off" } t
    ∧ (do_GET sockOk req t).table = setEntry t (req.band.getD 1) (req.id.getD 1) "off"
    ∧ (do_GET sockOk req t).sends = [(req.band.getD 1, req.id.getD 1, "off")]
    ∧ ∀ msg, (do_GET sockOk req t).resp ≠ Resp.err 400 msg := by
  have hoff : pyLower (req.state.getD "off") = "off" := by rw [hnone]; rfl
  obtain ⟨ht, hs, hok, hfail⟩ :=
    do_GET_valid sockOk req t hfav (by rw [hoff]; decide) hid hband
  rw [hoff] at ht hs
  refine ⟨?_, ht, hs, ?_⟩
  · simp [do_GET, hnone]
  · intro msg hcontra
    cases hsock : sockOk with
    | true => rw [hok hsock] at hcontra; exact Resp.noConfusion hcontra
    | false =>
      rw [hfail hsock] at hcontra
      have : (500 : Nat) = 400 := by injection hcontra
      omega

/-- A bare request: `/` with no query parameters at all. -/
def reqBare : Request :=
  { isFavicon := false, state := none, id := none, band := none }

/-- Witness for C10 on the bare request `/`. -/
theorem C10_missing_state_defaults_off_witness :
    (reqBare.state = none ∧ reqBare.isFavicon = false
      ∧ (reqBare.id.getD 1 = 1 ∨ reqBare.id.getD 1 = 2)
      ∧ reqBare.band.getD 1 ∈ bandIds) ∧
    (do_GET true reqBare init_current_states
        = do_GET true { reqBare with state := some "off" } init_current_states
    ∧ (do_GET true reqBare init_current_states).table
        = setEntry init_current_states (reqBare.band.getD 1) (reqBare.id.getD 1) "off"
    ∧ (do_GET true reqBare init_current_states).sends
        = [(reqBare.band.getD 1, reqBare.id.getD 1, "off")]
    ∧ ∀ msg, (do_GET true reqBare init_current_states).resp ≠ Resp.err 400 msg) :=
  ⟨⟨rfl, rfl, Or.inl rfl, by decide⟩,
   C10_missing_state_defaults_off true reqBare init_current_states rfl rfl
     (Or.inl rfl) (by decide)⟩

/-! ## Table-domain lemmas (claim C8) -/

/-- The configured (group, screen) domain: every configured group with
screens 1 and 2. -/
def configuredPairs : List (Int × Int) :=
  bandIds.flatMap (fun b => [(b, 1), (b, 2)])

/-- An entry key's group is an outer key. -/
theorem fst_mem_of_mem_entryKeys {t : Table} {b s : Int}
    (h : (b, s) ∈ entryKeys t) : b ∈ t.map Prod.fst := by
  simp only [entryKeys, List.mem_flatMap, List.mem_map] at h
  obtain ⟨e, he, p, _, heq⟩ := h
  exact List.mem_map.mpr ⟨e, he, congrArg Prod.fst heq⟩

/-- Overwriting a present key leaves the inner dict's key list unchanged. -/
theorem innerSet_keys_of_mem (d : List (Int × String)) (s : Int) (v : String)
    (h : s ∈ d.map Prod.fst) :
    (innerSet d s v).map Prod.fst = d.map Prod.fst := by
  obtain ⟨p, hp, hps⟩ := List.mem_map.mp h
  have hany : d.any (fun e => e.1 = s) = true :=
    List.any_eq_true.mpr ⟨p, hp, by simp [hps]⟩
  unfold innerSet
  rw [if_pos hany, List.map_map]
  have hfun : (Prod.fst ∘ fun e : Int × String => if e.1 = s then (s, v) else e)
      = Prod.fst := by
    funext e
    by_cases he : e.1 = s <;> simp [he]
  rw [hfun]

/-- `innerSet` preserves distinctness of the inner keys. -/
theorem innerSet_keys_nodup (d : List (Int × String)) (s : Int) (v : String)
    (h : (d.map Prod.fst).Nodup) :
    ((innerSet d s v).map Prod.fst).Nodup := by
  by_cases hmem : s ∈ d.map Prod.fst
  · rw [innerSet_keys_of_mem d s v hmem]; exact h
  · have hany : d.any (fun e => e.1 = s) = false := by
      rw [List.any_eq_false]
      intro p hp
      simp only [decide_eq_true_eq]
      intro hps
      exact hmem (List.mem_map.mpr ⟨p, hp, hps⟩)
    unfold innerSet
    rw [if_neg (by simp [hany]), List.map_append]
    simp only [List.map_cons, List.map_nil]
    rw [List.nodup_append]
    refine ⟨h, List.nodup_singleton s, ?_⟩
    intro a ha hb2
    simp only [List.mem_singleton] at hb2
    exact hmem (hb2 ▸ ha)

/-- Updating an absent group is a no-op. -/
theorem setEntry_of_not_mem (t : Table) (b s : Int) (v : String)
    (h : b ∉ t.map Prod.fst) : setEntry t b s v = t := by
  unfold setEntry
  conv_rhs => rw [← List.map_id t]
  apply List.map_congr_left
  intro e he
  have hne : e.1 ≠ b := fun heq => h (List.mem_map.mpr ⟨e, he, heq⟩)
  simp [hne]

/-- `setEntry` never changes the outer key list. -/
theorem setEntry_outer_keys (t : Table) (b s : Int) (v : String) :
    (setEntry t b s v).map Prod.fst = t.map Prod.fst := by
  unfold setEntry
  rw [List.map_map]
  have hfun : (Prod.fst ∘ fun e : Int × List (Int × String) =>
      if e.1 = b then (e.1, innerSet e.2 s v) else e) = Prod.fst := by
    funext e
    by_cases he : e.1 = b <;> simp [he]
  rw [hfun]

/-- Unfolding `entryKeys` over a cons cell. -/
theorem entryKeys_cons (e : Int × List (Int × String)) (t : Table) :
    entryKeys (e :: t) = e.2.map (fun p => (e.1, p.1)) ++ entryKeys t := rfl

/-- The entry keys of one group are determined by the inner key list. -/
theorem map_pair_fst (b : Int) (d : List (Int × String)) :
    d.map (fun p => (b, p.1)) = (d.map Prod.fst).map (fun k => (b, k)) := by
  rw [List.map_map]; rfl

/-- Overwriting an existing (group, screen) key leaves the whole key
domain of the table unchanged. -/
theorem entryKeys_setEntry (t : Table) (b s : Int) (v : String)
    (hnd : (t.map Prod.fst).Nodup) (h : (b, s) ∈ entryKeys t) :
    entryKeys (setEntry t b s v) = entryKeys t := by
  induction t with
  | nil => simp [entryKeys] at h
  | cons e t' ih =>
    rw [List.map_cons, List.nodup_cons] at hnd
    rw [entryKeys_cons, List.mem_append] at h
    by_cases hb : e.1 = b
    · have hs : s ∈ e.2.map Prod.fst := by
        rcases h with h | h
        · obtain ⟨p, hp, heq⟩ := List.mem_map.mp h
          exact List.mem_map.mpr ⟨p, hp, congrArg Prod.snd heq⟩
        · exact absurd (hb ▸ fst_mem_of_mem_entryKeys h) hnd.1
      have htail : setEntry t' b s v = t' :=
        setEntry_of_not_mem t' b s v (hb ▸ hnd.1)
      have hstep : setEntry (e :: t') b s v = (e.1, innerSet e.2 s v) :: t' := by
        unfold setEntry at htail ⊢
        rw [List.map_cons, if_pos hb, htail]
      rw [hstep, entryKeys_cons, entryKeys_cons]
      congr 1
      rw [map_pair_fst e.1 (innerSet e.2 s v), innerSet_keys_of_mem e.2 s v hs,
          ← map_pair_fst e.1 e.2]
    · have h' : (b, s) ∈ entryKeys t' := by
        rcases h with h | h
        · obtain ⟨p, _, heq⟩ := List.mem_map.mp h
          exact absurd (congrArg Prod.fst heq) (by simpa using hb)
        · exact h
      have hstep : setEntry (e :: t') b s v = e :: setEntry t' b s v := by
        unfold setEntry
        rw [List.map_cons, if_neg hb]
      rw [hstep, entryKeys_cons, entryKeys_cons]
      congr 1
      exact ih hnd.2 h'

/-- `setEntry` preserves well-formedness of the table. -/
theorem TableWF_setEntry (t : Table) (b s : Int) (v : String)
    (h : TableWF t) : TableWF (setEntry t b s v) := by
  obtain ⟨hout, hin⟩ := h
  refine ⟨by rw [setEntry_outer_keys]; exact hout, ?_⟩
  intro e he
  unfold setEntry at he
  obtain ⟨x, hx, hxe⟩ := List.mem_map.mp he
  by_cases hxb : x.1 = b
  · rw [if_pos hxb] at hxe
    rw [← hxe]
    exact innerSet_keys_nodup x.2 s v (hin x hx)
  · rw [if_neg hxb] at hxe
    rw [← hxe]
    exact hin x hx

/-- The table produced by `do_GET` is either untouched or a `setEntry`
at a validated (group, screen) key. -/
theorem do_GET_table_cases (sockOk : Bool) (req : Request) (t : Table) :
    (do_GET sockOk req t).table = t ∨
    ∃ band screen st, band ∈ bandIds ∧ (screen = 1 ∨ screen = 2) ∧
      (do_GET sockOk req t).table = setEntry t band screen st := by
  cases hf : req.isFavicon with
  | true => left; simp [do_GET, hf]
  | false =>
    by_cases hst : pyLower (req.state.getD "off") ∈ VALID_STATES
    · by_cases hid : req.id.getD 1 ≠ 1 ∧ req.id.getD 1 ≠ 2
      · left; simp [do_GET, hf, hst, hid]
      · by_cases hband : req.band.getD 1 ∈ bandIds
        · right
          refine ⟨req.band.getD 1, req.id.getD 1, pyLower (req.state.getD "off"),
                  hband, ?_, ?_⟩
          · by_cases h1 : req.id.getD 1 = 1
            · exact Or.inl h1
            · exact Or.inr (by tauto)
          · simp only [do_GET, hf, Bool.false_eq_true, if_false]
            rw [if_neg (by simpa using hst), if_neg hid, if_neg (by simpa using hband)]
            split <;> rfl
        · left; simp [do_GET, hf, hst, hid, hband]
    · left; simp [do_GET, hf, hst]

/-- The invariant of claim C8: well-formed dict shape and key domain
exactly the configured (group, screen) pairs. -/
abbrev TableDom (t : Table) : Prop :=
  TableWF t ∧ entryKeys t = configuredPairs

/-- A validated (group, screen) pair is in the configured domain. -/
theorem mem_configuredPairs (b s : Int) (hb : b ∈ bandIds)
    (hs : s = 1 ∨ s = 2) : (b, s) ∈ configuredPairs := by
  simp only [bandIds, BANDEAUX, List.map_cons, List.map_nil, List.mem_cons,
             List.not_mem_nil, or_false] at hb
  rcases hb with hb | hb | hb <;> rcases hs with hs | hs <;> subst hb <;> subst hs <;>
    decide

/-- C8: the commanded-state table's key domain is exactly the configured
(group, screen) pairs — with every configured group and screens {1, 2} —
at startup, and this domain (together with dict well-formedness) is
preserved by every `do_GET`; graceful shutdown does not touch the table at
all.  Entries are only overwritten in place, never deleted, never added. -/
theorem C8_table_domain :
    TableDom init_current_states
    ∧ (∀ sockOk req t, TableDom t → TableDom (do_GET sockOk req t).table)
    ∧ (∀ sockOk t, (shutdownRun sockOk t).1 = t) := by
  refine ⟨⟨by decide, by decide⟩, ?_, fun _ _ => rfl⟩
  intro sockOk req t ⟨hwf, hdom⟩
  rcases do_GET_table_cases sockOk req t with h | ⟨band, screen, st, hb, hs, h⟩
  · rw [h]; exact ⟨hwf, hdom⟩
  · rw [h]
    have hmem : (band, screen) ∈ entryKeys t :=
      hdom ▸ mem_configuredPairs band screen hb hs
    exact ⟨TableWF_setEntry t band screen st hwf,
           (entryKeys_setEntry t band screen st hwf.1 hmem).trans hdom⟩

/-- Witness for C8: the domain invariant holds at startup and after the
request `/?state=rouge&band=1&id=2`. -/
theorem C8_table_domain_witness :
    TableDom init_current_states ∧
    TableDom (do_GET true reqRouge init_current_states).table :=
  ⟨C8_table_domain.1,
   C8_table_domain.2.1 true reqRouge init_current_states C8_table_domain.1⟩

/-- Counterexample to C4 as stated: the claim says the commanded-state
table entries "are reset to idle as part of this shutdown", but the
`KeyboardInterrupt` branch of `main` never writes to `current_states` — it
only transmits OFF datagrams.  With entry (1,1) commanded `rouge`, after a
complete graceful shutdown the table still holds `rouge` at (1,1), not
`off`. -/
theorem C4_counterexample :
    (shutdownRun true (setEntry init_current_states 1 1 "rouge")).1
        = setEntry init_current_states 1 1 "rouge"
    ∧ getEntry (shutdownRun true (setEntry init_current_states 1 1 "rouge")).1 1 1
        = some "rouge"
    ∧ (some "rouge" : Option String) ≠ some "off" :=
  ⟨rfl, by decide, by decide⟩

/-- C4 (amended): during graceful shutdown the system performs exactly one
idle-state (`off`) send for every configured (group, screen) pair —
including pairs whose commanded state is already `off` — and all of these
sends happen before any socket is closed; the commanded-state table itself
is left unchanged (it is *not* reset to idle — the process simply exits). -/
theorem C4_shutdown_sends (sockOk : Bool) (t : Table) :
    shutdownRun sockOk t =
      (t, [ShutdownEv.send 1 1 "off" sockOk, ShutdownEv.send 1 2 "off" sockOk,
           ShutdownEv.send 2 1 "off" sockOk, ShutdownEv.send 2 2 "off" sockOk,
           ShutdownEv.send 3 1 "off" sockOk, ShutdownEv.send 3 2 "off" sockOk,
           ShutdownEv.close 1, ShutdownEv.close 2, ShutdownEv.close 3]) := by
  cases sockOk <;> rfl

/-! ## Step equations for the lock-discipline semantics -/

theorem stepT_none (c : LockConfig) (i : Nat) (h : c.progs[i]? = none) :
    stepT c i = c := by
  unfold stepT
  rw [h]

theorem stepT_nil (c : LockConfig) (i : Nat) (h : c.progs[i]? = some []) :
    stepT c i = c := by
  unfold stepT
  rw [h]

theorem stepT_acq_free (c : LockConfig) (i : Nat) (rest : List Act)
    (h : c.progs[i]? = some (Act.acq :: rest)) (hl : c.lock = none) :
    stepT c i = { c with lock := some i, progs := c.progs.set i rest } := by
  unfold stepT
  rw [h]
  simp [hl]

theorem stepT_acq_held (c : LockConfig) (i : Nat) (rest : List Act)
    (h : c.progs[i]? = some (Act.acq :: rest)) (hl : c.lock ≠ none) :
    stepT c i = c := by
  unfold stepT
  rw [h]
  simp [hl]

theorem stepT_rel_own (c : LockConfig) (i : Nat) (rest : List Act)
    (h : c.progs[i]? = some (Act.rel :: rest)) (hl : c.lock = some i) :
    stepT c i = { c with lock := none, progs := c.progs.set i rest } := by
  unfold stepT
  rw [h]
  simp [hl]

theorem stepT_write_eq (c : LockConfig) (i : Nat) (k : Int × Int) (v : String)
    (rest : List Act) (h : c.progs[i]? = some (Act.write k v :: rest)) :
    stepT c i = { c with table := setEntry c.table k.1 k.2 v,
                         progs := c.progs.set i rest } := by
  unfold stepT
  rw [h]

theorem stepT_copy_eq (c : LockConfig) (i : Nat) (band : Int)
    (rest : List Act) (h : c.progs[i]? = some (Act.copy band :: rest)) :
    stepT c i = { c with acc := c.acc ++ c.table.filter (fun e => e.1 = band),
                         progs := c.progs.set i rest } := by
  unfold stepT
  rw [h]

/-- One scheduler step of any thread preserves the snapshot invariant. -/
theorem stepT_preserves_SnapInv (T : Table) (c : LockConfig) (i : Nat)
    (h : SnapInv T c) : SnapInv T (stepT c i) := by
  rcases h with ⟨hlock, htab, ⟨done, rem, hdr, hp0, hacc⟩, hw⟩ | ⟨hp0, hacc, hrest⟩
  · -- Phase 1: the poller holds the lock.
    by_cases hi : i = 0
    · subst hi
      cases rem with
      | nil =>
        have hp0' : c.progs[0]? = some [Act.rel] := by simpa using hp0
        obtain ⟨hlen, -⟩ := List.getElem?_eq_some.mp hp0'
        rw [stepT_rel_own c 0 [] hp0' hlock]
        right
        refine ⟨?_, ?_, Or.inl ⟨rfl, ?_⟩⟩
        · show (c.progs.set 0 [])[0]? = some []
          exact List.getElem?_set_eq_of_lt [] hlen
        · show c.acc = snapshotOf T
          have hd : done = bandIds := by simpa using hdr
          rw [hacc, hd]
          rfl
        · intro j p hj hpj
          rw [show (c.progs.set 0 [])[j]? = c.progs[j]?
                from List.getElem?_set_ne (Ne.symm hj)] at hpj
          exact hw j p hj hpj
      | cons band rem' =>
        have hp0' : c.progs[0]? =
            some (Act.copy band :: (rem'.map Act.copy ++ [Act.rel])) := by
          simpa using hp0
        obtain ⟨hlen, -⟩ := List.getElem?_eq_some.mp hp0'
        rw [stepT_copy_eq c 0 band _ hp0']
        left
        refine ⟨hlock, htab, ⟨done ++ [band], rem', ?_, ?_, ?_⟩, ?_⟩
        · rw [List.append_assoc]
          simpa using hdr
        · show (c.progs.set 0 _)[0]? = some (rem'.map Act.copy ++ [Act.rel])
          exact List.getElem?_set_eq_of_lt _ hlen
        · show c.acc ++ c.table.filter (fun e => e.1 = band)
              = (done ++ [band]).flatMap (fun b => T.filter (fun e => e.1 = b))
          rw [hacc, htab, List.flatMap_append]
          simp
        · intro j p hj hpj
          rw [show (c.progs.set 0 _)[j]? = c.progs[j]?
                from List.getElem?_set_ne (Ne.symm hj)] at hpj
          exact hw j p hj hpj
    · cases hpi : c.progs[i]? with
      | none =>
        rw [stepT_none c i hpi]
        exact Or.inl ⟨hlock, htab, ⟨done, rem, hdr, hp0, hacc⟩, hw⟩
      | some p =>
        rcases hw i p hi hpi with ⟨k, v, rfl⟩ | rfl
        · rw [stepT_acq_held c i _ hpi (by simp [hlock])]
          exact Or.inl ⟨hlock, htab, ⟨done, rem, hdr, hp0, hacc⟩, hw⟩
        · rw [stepT_nil c i hpi]
          exact Or.inl ⟨hlock, htab, ⟨done, rem, hdr, hp0, hacc⟩, hw⟩
  · -- Phase 2: the poller is done; the snapshot is already complete.
    by_cases hi : i = 0
    · subst hi
      rw [stepT_nil c 0 hp0]
      exact Or.inr ⟨hp0, hacc, hrest⟩
    · rcases hrest with ⟨hlock, hout⟩ | ⟨j, hj0, hlockj, hmid, houtj⟩
      · cases hpi : c.progs[i]? with
        | none =>
          rw [stepT_none c i hpi]
          exact Or.inr ⟨hp0, hacc, Or.inl ⟨hlock, hout⟩⟩
        | some p =>
          rcases hout i p hi hpi with ⟨k, v, rfl⟩ | rfl
          · obtain ⟨hlen, -⟩ := List.getElem?_eq_some.mp hpi
            rw [stepT_acq_free c i _ hpi hlock]
            right
            refine ⟨?_, hacc, Or.inr ⟨i, hi, rfl, ?_, ?_⟩⟩
            · show (c.progs.set i _)[0]? = some []
              rw [List.getElem?_set_ne hi]
              exact hp0
            · intro p' hp'
              rw [show (c.progs.set i [Act.write k v, Act.rel])[i]?
                    = some [Act.write k v, Act.rel]
                    from List.getElem?_set_eq_of_lt _ hlen] at hp'
              injection hp' with hp''
              exact hp'' ▸ (Or.inl ⟨k, v, rfl⟩ :
                writerMid [Act.write k v, Act.rel])
            · intro j' p' hj'0 hj'i hpj'
              rw [show (c.progs.set i _)[j']? = c.progs[j']?
                    from List.getElem?_set_ne (Ne.symm hj'i)] at hpj'
              exact hout j' p' hj'0 hpj'
          · rw [stepT_nil c i hpi]
            exact Or.inr ⟨hp0, hacc, Or.inl ⟨hlock, hout⟩⟩
      · by_cases hij : i = j
        · subst hij
          cases hpi : c.progs[i]? with
          | none =>
            rw [stepT_none c i hpi]
            exact Or.inr ⟨hp0, hacc, Or.inr ⟨i, hj0, hlockj, hmid, houtj⟩⟩
          | some p =>
            rcases hmid p hpi with ⟨k, v, rfl⟩ | rfl
            · obtain ⟨hlen, -⟩ := List.getElem?_eq_some.mp hpi
              rw [stepT_write_eq c i k v _ hpi]
              right
              refine ⟨?_, hacc, Or.inr ⟨i, hj0, hlockj, ?_, ?_⟩⟩
              · show (c.progs.set i _)[0]? = some []
                rw [List.getElem?_set_ne hj0]
                exact hp0
              · intro p' hp'
                rw [show (c.progs.set i [Act.rel])[i]? = some [Act.rel]
                      from List.getElem?_set_eq_of_lt _ hlen] at hp'
                injection hp' with hp''
                exact hp'' ▸ (Or.inr rfl : writerMid [Act.rel])
              · intro j' p' hj'0 hj'i hpj'
                rw [show (c.progs.set i _)[j']? = c.progs[j']?
                      from List.getElem?_set_ne (Ne.symm hj'i)] at hpj'
                exact houtj j' p' hj'0 hj'i hpj'
            · obtain ⟨hlen, -⟩ := List.getElem?_eq_some.mp hpi
              rw [stepT_rel_own c i [] hpi hlockj]
              right
              refine ⟨?_, hacc, Or.inl ⟨rfl, ?_⟩⟩
              · show (c.progs.set i [])[0]? = some []
                rw [List.getElem?_set_ne hj0]
                exact hp0
              · intro j' p' hj' hpj'
                by_cases hj'i : j' = i
                · subst hj'i
                  rw [show (c.progs.set j' [])[j']? = some []
                        from List.getElem?_set_eq_of_lt _ hlen] at hpj'
                  injection hpj' with hp''
                  exact Or.inr hp''.symm
                · rw [show (c.progs.set i [])[j']? = c.progs[j']?
                        from List.getElem?_set_ne
                          (fun he => hj'i he.symm)] at hpj'
                  exact houtj j' p' hj' hj'i hpj'
        · cases hpi : c.progs[i]? with
          | none =>
            rw [stepT_none c i hpi]
            exact Or.inr ⟨hp0, hacc, Or.inr ⟨j, hj0, hlockj, hmid, houtj⟩⟩
          | some p =>
            rcases houtj i p hi hij hpi with ⟨k, v, rfl⟩ | rfl
            · rw [stepT_acq_held c i _ hpi (by simp [hlockj])]
              exact Or.inr ⟨hp0, hacc, Or.inr ⟨j, hj0, hlockj, hmid, houtj⟩⟩
            · rw [stepT_nil c i hpi]
              exact Or.inr ⟨hp0, hacc, Or.inr ⟨j, hj0, hlockj, hmid, houtj⟩⟩

/-- A whole schedule preserves the snapshot invariant. -/
theorem runSched_preserves_SnapInv (T : Table) (c : LockConfig)
    (sched : List Nat) (h : SnapInv T c) : SnapInv T (runSched c sched) := by
  induction sched generalizing c with
  | nil => exact h
  | cons i s ih => exact ih (stepT c i) (stepT_preserves_SnapInv T c i h)

/-- C9: all table writes and snapshot reads are serialized by the single
exclusive lock.  In the interleaving semantics — where `write` and `copy`
are *not* runtime-guarded, exactly as in Python — if the poller (thread 0)
holds `state_lock` with its band-by-band copy still ahead of it, every
other thread is an HTTP writer outside its `with state_lock` block, and
some schedule runs the poller to completion, then the accumulated snapshot
is the fully-consistent copy of the table as it stood at acquisition:
no concurrent write can interleave partially with the snapshot. -/
theorem C9_snapshot_consistent (c : LockConfig) (sched : List Nat)
    (hlock : c.lock = some 0)
    (hprog : c.progs[0]? = some (bandIds.map Act.copy ++ [Act.rel]))
    (hacc : c.acc = [])
    (hw : ∀ j p, j ≠ 0 → c.progs[j]? = some p → writerOutside p)
    (hdone : (runSched c sched).progs[0]? = some ([] : List Act)) :
    (runSched c sched).acc = snapshotOf c.table := by
  have hinv : SnapInv c.table c :=
    Or.inl ⟨hlock, rfl, ⟨[], bandIds, rfl, hprog, by simpa using hacc⟩, hw⟩
  have hinv' := runSched_preserves_SnapInv c.table c sched hinv
  rcases hinv' with ⟨-, -, ⟨done, rem, -, hp0, -⟩, -⟩ | ⟨-, hacc', -⟩
  · rw [hdone] at hp0
    have hcontra := Option.some.inj hp0
    cases rem <;> simp at hcontra
  · exact hacc'

/-- A demo start configuration for the C9 witness: the poller has just
acquired the lock over a table with (2,1) commanded `vert`; one HTTP
writer wants to set (1,1) to `rouge`. -/
def demoCfg : LockConfig :=
  { table := setEntry init_current_states 2 1 "vert"
    lock := some 0
    progs := [bandIds.map Act.copy ++ [Act.rel], writerProg (1, 1) "rouge"]
    acc := [] }

/-- A demo schedule: the writer keeps trying (blocked on `acquire`) while
the poller copies all three bands and releases; then the writer runs. -/
def demoSched : List Nat := [1, 0, 1, 0, 0, 0, 1, 1, 1]

/-- Witness for C9 on the demo configuration and schedule. -/
theorem C9_snapshot_consistent_witness :
    (demoCfg.lock = some 0
      ∧ demoCfg.progs[0]? = some (bandIds.map Act.copy ++ [Act.rel])
      ∧ demoCfg.acc = []
      ∧ (∀ j p, j ≠ 0 → demoCfg.progs[j]? = some p → writerOutside p)
      ∧ (runSched demoCfg demoSched).progs[0]? = some ([] : List Act)) ∧
    (runSched demoCfg demoSched).acc = snapshotOf demoCfg.table := by
  have hw : ∀ j p, j ≠ 0 → demoCfg.progs[j]? = some p → writerOutside p := by
    intro j p hj hp
    match j, hj with
    | 1, _ =>
      rw [show demoCfg.progs[1]? = some (writerProg (1, 1) "rouge") from rfl] at hp
      injection hp with hp'
      exact Or.inl ⟨(1, 1), "rouge", hp'.symm⟩
    | n + 2, _ =>
      rw [show demoCfg.progs[n + 2]? = none from
            List.getElem?_eq_none (by simp [demoCfg])] at hp
      exact Option.noConfusion hp
  exact ⟨⟨rfl, rfl, rfl, hw, by decide⟩,
         C9_snapshot_consistent demoCfg demoSched rfl rfl rfl hw (by decide)⟩

end TallyBridge
